import Mathlib

/-!
Verification of the benchmark-orchestration script `scripts/run_benchmarks.py`
of the repository `7-language-memory-comparison`.

The Python source is shallowly embedded below.  External collaborators are
modelled at their interface:

* `subprocess.run(..., check = True)` is modelled by an exit code supplied by
  the environment; a non-zero exit raises (here: returns an error value).
  When the call does not capture stdout/stderr (the dotnet build and the
  measurement-helper invocation), the child writes directly to the inherited
  streams and the raised `CalledProcessError` carries no captured text.
* `json.loads` (Python's standard library) is modelled abstractly: the raw
  text of the result file is represented by its parse outcome (`FileText`),
  either `malformed` (text `json.loads` rejects, e.g. the empty string) or a
  parsed `Json` value.
* `tempfile.NamedTemporaryFile(delete = False)` CREATES the temporary file
  (empty) on disk; after `tmp.close()` the empty file still exists.  Hence a
  helper process that never touches the file leaves an existing file whose
  content (the empty string) is unparseable; the file is absent afterwards
  only if something removed it.  This is captured by `HelperAction`.
* Python `dict` objects are modelled as ordered association lists
  (`Jobj`); `json.loads` produces dictionaries with pairwise-distinct keys,
  and `d[k] = v` replaces the value of an existing key in place (keeping its
  position) or appends a fresh key at the end (`setKey`).

Filesystem paths are plain strings.  Environment-variable plumbing
(`os.environ.copy()` / `env.update`) is not modelled: no claim refers to it.
-/

namespace RunBenchmarks

/-- JSON values, restricted to the forms the measurement protocol uses:
strings, integers, floating-point numbers (modelled exactly as rationals)
and objects.  Python's `json.loads` distinguishes `int` from `float`. -/
inductive Json where
  | str (s : String)
  | int (n : Int)
  | float (q : ℚ)
  | obj (kvs : List (String × Json))

/-- An ordered association list modelling a Python `dict` parsed from JSON
(keys pairwise distinct, insertion order preserved). -/
abbrev Jobj := List (String × Json)

/-- Python `o[k]` as a read: the value at the first occurrence of key `k`. -/
def lookup (o : Jobj) (k : String) : Option Json :=
  match o with
  | [] => none
  | (k₀, v₀) :: rest => if k₀ = k then some v₀ else lookup rest k

/-- Python `o[k] = v` on a dict: replace the value at key `k` in place if the
key is present (its position is kept), otherwise append `(k, v)` at the end.
On lists whose keys are pairwise distinct — every dict `json.loads` yields —
replacing the first occurrence is exactly dict assignment. -/
def setKey : Jobj → String → Json → Jobj
  | [], k, v => [(k, v)]
  | (k₀, v₀) :: rest, k, v =>
    if k₀ = k then (k, v) :: rest else (k₀, v₀) :: setKey rest k v

/-- The `Target` dataclass of `run_benchmarks.py`: display name, working
directory, invocation template, optional environment overrides. -/
structure Target where
  name : String
  cwd : String
  template : List String
  env : List (String × String) := []

/-- `Target.command(depth)`: walk the template in order, emitting `str(depth)`
for each token equal to the placeholder `"{n}"` and the token itself
otherwise (lines 23–30 of `run_benchmarks.py`). -/
def Target.command (t : Target) (depth : Int) : List String :=
  t.template.map (fun token => if token = "{n}" then toString depth else token)

/-- Raw content of the result file, modelled by its `json.loads` outcome:
`malformed` stands for any text `json.loads` rejects — in particular the
empty string, the content of the freshly created temporary file. -/
inductive FileText where
  | malformed
  | val (j : Json)

/-- What the freshly created temporary file contains:
`tempfile.NamedTemporaryFile(delete = False)` creates an empty file on disk
(lines 103–105), and the empty string is not parseable JSON. -/
def initialTempContent : FileText := .malformed

/-- What the helper process did to the result file before exiting: wrote it,
removed it, or never touched it (leaving the pre-created empty file). -/
inductive HelperAction where
  | write (t : FileText)
  | remove
  | untouched

/-- State of the result-file path right after the helper exits, given the
helper's action on the pre-created empty file. -/
def fileAfter : HelperAction → Option FileText
  | .write t => some t
  | .remove => none
  | .untouched => some initialTempContent

/-- Outcome of one helper invocation, supplied by the environment: the
helper's exit status and its action on the result file. -/
structure HelperOutcome where
  exit : Int
  act : HelperAction

/-- Errors that can abort `run_measurement` (all propagate to the caller):
`nonZeroExit` is the `CalledProcessError` raised by `check = True` on
line 121 (stdout/stderr are not captured there, so it carries no text);
`missingResultFile` is the `RuntimeError` of lines 129–131, which carries the
target name and depth in its message; `malformedResult` is the
`json.JSONDecodeError` raised by `json.loads` on line 135; `notADict` is the
`TypeError` raised by item assignment on line 136 when the parsed value is
not a dictionary; `osError` stands for a failure of the `unlink` call on
line 134 (unreachable in this model, since the file exists there). -/
inductive MeasureError where
  | nonZeroExit (code : Int)
  | missingResultFile (language : String) (depth : Int)
  | malformedResult
  | notADict
  | osError
deriving DecidableEq

/-- Python `Path.unlink(missing_ok = ...)`: removing an existing file always
succeeds; removing an absent file raises `FileNotFoundError` unless
`missing_ok` is true. -/
def unlink (missing_ok : Bool) (file : Option FileText) :
    Except String (Option FileText) :=
  match file with
  | some _ => .ok none
  | none => if missing_ok then .ok none else .error "FileNotFoundError"

/-- What one call of `run_measurement` leaves behind: the returned record or
the raised error, the final state of the result-file path, and the argv the
helper was invoked with. -/
structure RunOutcome where
  result : Except MeasureError Jobj
  fileFinal : Option FileText
  cmd : List String

/-- `run_measurement(target, depth, python_exec)` (lines 98–138), given the
helper's behaviour and the (unique) temporary file name:
build the helper argv; run the helper, `check = True` raising on a non-zero
exit (the file, whatever its state, is then never cleaned up); require the
result-file path to exist, else raise the `RuntimeError` of lines 129–131;
read the text, delete the file (`missing_ok = True`, before parsing), parse
with `json.loads`, then decorate the dictionary with
`data["language"] = target.name` and `data["depth"] = depth` and return it. -/
def run_measurement (target : Target) (depth : Int) (python_exec : String)
    (tmpName : String) (h : HelperOutcome) : RunOutcome :=
  let cmd := [python_exec, "scripts/measure_memory.py",
              "--cwd", target.cwd, "--json-file", tmpName, "--"]
             ++ target.command depth
  if h.exit ≠ 0 then
    ⟨.error (.nonZeroExit h.exit), fileAfter h.act, cmd⟩
  else
    match fileAfter h.act with
    | none => ⟨.error (.missingResultFile target.name depth), none, cmd⟩
    | some txt =>
      match unlink true (some txt) with
      | .error _ => ⟨.error .osError, some txt, cmd⟩ -- unreachable: the file exists
      | .ok fs =>
        match txt with
        | .malformed => ⟨.error .malformedResult, fs, cmd⟩
        | .val (.obj kvs) =>
            ⟨.ok (setKey (setKey kvs "language" (.str target.name))
                    "depth" (.int depth)), fs, cmd⟩
        | .val _ => ⟨.error .notADict, fs, cmd⟩

/-- Errors that can abort `format_table`: `keyError k` is the `KeyError`
raised by `row[k]` on a missing key; `badValue` is the error Python raises
when the `:.2f` format spec is applied to a non-numeric value. -/
inductive TblError where
  | keyError (k : String)
  | badValue
deriving DecidableEq

/-- Python `row[k]`: the value at key `k`, or a `KeyError`. -/
def getKey (o : Jobj) (k : String) : Except TblError Json :=
  match lookup o k with
  | some v => .ok v
  | none => .error (.keyError k)

/-- Two decimal digits with a leading zero, for the fractional part of a
`:.2f` rendering. -/
def twoDigits (n : Nat) : String :=
  if n < 10 then "0" ++ toString n else toString n

/-- Python `f"{v:.2f}"` on the non-negative value `num / den` (`den > 0`,
`num ≥ 0`): the nearest whole number of hundredths,
`⌊(num / den) * 100 + 1/2⌋ = (200 * num + den) / (2 * den)`, printed with
exactly two decimals.  (Python rounds the underlying binary double
half-to-even; this model rounds half up, which agrees everywhere a claim
evaluates it — no claim uses a midpoint.) -/
def fmt2n (num : Int) (den : Nat) : String :=
  let n : Nat := (200 * num + den).toNat / (2 * den)
  toString (n / 100) ++ "." ++ twoDigits (n % 100)

/-- Python `f"{v:.2f}"` on the value `num / den` (`den > 0`), signs handled
as Python does. -/
def fmt2i (num : Int) (den : Nat) : String :=
  if num < 0 then "-" ++ fmt2n (-num) den else fmt2n num den

/-- Python `f"{q:.2f}"` on a rational. -/
def fmt2 (q : ℚ) : String := fmt2i q.num q.den

/-- Python `f"{v}"` (default format) for the values this script ever
formats that way: the string itself for a string, the decimal form for an
integer.  The script only default-formats `row["language"]` (always a
string) and `row["depth"]` (always an integer it stored itself), so the
remaining branches are placeholders that no theorem relies on. -/
def pyStrDefault : Json → String
  | .str s => s
  | .int n => toString n
  | .float q => fmt2 q
  | .obj _ => "{...}"

/-- One data row of the table (lines 143–150): `row["language"]` and
`row["depth"]` default-formatted, `row["peak_mb"]` formatted `:.2f`;
a missing key raises `KeyError` (keys are read in this order), a
non-numeric `peak_mb` raises at the format spec. -/
def mkDataRow (row : Jobj) : Except TblError (List String) := do
  let lang ← getKey row "language"
  let dep ← getKey row "depth"
  let peak ← getKey row "peak_mb"
  match peak with
  | .int n => .ok [pyStrDefault lang, pyStrDefault dep, fmt2i n 1]
  | .float q => .ok [pyStrDefault lang, pyStrDefault dep, fmt2 q]
  | _ => .error .badValue

/-- The header labels of line 142. -/
def headers : List String := ["语言", "树深度", "峰值 RSS (MB)"]

/-- One pass of the width loop of lines 153–155: bump each column width to
the length of that row's cell.  (The source indexes `widths[idx]` for each
cell; rows never have more cells than there are widths.) -/
def bumpWidths : List Nat → List String → List Nat
  | [], _ => []
  | ws, [] => ws
  | w :: ws, c :: cs => max w c.length :: bumpWidths ws cs

/-- Python `s.ljust(w)`: pad with spaces on the right up to width `w`,
never truncating. -/
def ljust (s : String) (w : Nat) : String :=
  s ++ String.mk (List.replicate (w - s.length) ' ')

/-- The generator of line 158: each value left-justified to its column's
width, in order.  (Python would raise `IndexError` were there more values
than widths; rows never are longer, so extra values pass unpadded.) -/
def ljustCells : List String → List Nat → List String
  | [], _ => []
  | v :: vs, [] => v :: ljustCells vs []
  | v :: vs, w :: ws => ljust v w :: ljustCells vs ws

/-- A run of `w` dashes (line 160). -/
def dashes (w : Nat) : String := String.mk (List.replicate w '-')

/-- Python `sep.join(parts)`: the parts in order with `sep` between
consecutive parts. -/
def joinSep (sep : String) : List String → String
  | [] => ""
  | [a] => a
  | a :: b :: rest => a ++ sep ++ joinSep sep (b :: rest)

/-- The list comprehension of lines 143–150: format each row in order; the
first raised error aborts the whole comprehension. -/
def mapRows : List Jobj → Except TblError (List (List String))
  | [] => .ok []
  | r :: rs => do
    let a ← mkDataRow r
    let as ← mapRows rs
    .ok (a :: as)

/-- `format_table(rows)` (lines 141–163): build the formatted data rows,
compute per-column widths as the maximum of the header length and every
cell length, then emit the header line, the dashed separator joined with
`"-+-"`, and one line per data row, cells joined with `" | "`, all lines
joined with newlines. -/
def format_table (rows : List Jobj) : Except TblError String := do
  let data_rows ← mapRows rows
  let widths := data_rows.foldl bumpWidths (headers.map String.length)
  let fmt := fun (values : List String) =>
    joinSep " | " (ljustCells values widths)
  let separator := joinSep "-+-" (widths.map dashes)
  .ok (joinSep "\n" (fmt headers :: separator :: data_rows.map fmt))

/-- Errors that can abort `main`: `buildFailure code captured` is the
`CalledProcessError` that `check = True` raises in `ensure_dotnet_built`
(lines 89–95) — that call captures neither stdout nor stderr, so the
exception's captured text is `none` and the build's own output goes to the
inherited streams; `measure e` is an error propagating out of
`run_measurement`; `render e` is an error propagating out of
`format_table`. -/
inductive SessionError where
  | buildFailure (code : Int) (captured : Option String)
  | measure (e : MeasureError)
  | render (e : TblError)
deriving DecidableEq

/-- `ensure_dotnet_built()` (lines 89–95): run `dotnet publish` with
`check = True` and no capture; a non-zero exit raises `CalledProcessError`
carrying no captured output. -/
def ensure_dotnet_built (buildExit : Int) : Except SessionError Unit :=
  if buildExit ≠ 0 then .error (.buildFailure buildExit none) else .ok ()

/-- `ensure_rust_built()` (lines 54–72): runs `cargo build --release` with
stdout and stderr captured; on a non-zero exit re-raises as a
`RuntimeError` whose message embeds `exc.stderr or exc.stdout`.  Defined in
the source but its call in `main` is commented out (line 188). -/
def ensure_rust_built (buildExit : Int) (out err : String) :
    Except String Unit :=
  if buildExit ≠ 0 then
    .error ("cargo build --release 失败：" ++ (if err ≠ "" then err else out))
  else .ok ()

/-- The target registry `main` constructs (lines 195–237): every entry
except the `.NET` one is commented out in the source. -/
def dotnetTarget : Target :=
  { name := ".NET"
    cwd := "dotnet"
    template := ["./bin/Release/net10.0/linux-x64/publish/BinaryTrees", "{n}"] }

/-- The list `targets` of line 195: only the `.NET` target is active. -/
def targets : List Target := [dotnetTarget]

/-- The environment one session runs in: the exit status of the dotnet
build, the text that build writes to the (inherited) standard error, and the
behaviour of the measurement helper on its i-th invocation of the session
(numbering every spawned helper in order, starting at 0). -/
structure World where
  buildExit : Int
  buildStderr : String
  helperAt : Nat → HelperOutcome

/-- The inner loop of lines 241–247 for one depth: run the measurement for
each target in declaration order, appending each decorated record; the first
raised error aborts everything.  `i` numbers the helper invocations across
the whole session; the updated counter is returned for the next loop. -/
def measureInner (ts : List Target) (depth : Int) (python_exec : String)
    (w : World) (i : Nat) : Except MeasureError (List Jobj × Nat) :=
  match ts with
  | [] => .ok ([], i)
  | t :: rest =>
    match (run_measurement t depth python_exec ("tmp" ++ toString i)
            (w.helperAt i)).result with
    | .error e => .error e
    | .ok r =>
      match measureInner rest depth python_exec w (i + 1) with
      | .error e => .error e
      | .ok (rs, j) => .ok (r :: rs, j)

/-- The outer loop of lines 240–247: iterate the requested depths in the
order given, running the inner target loop for each and accumulating the
results in order. -/
def measureOuter (depths : List Int) (ts : List Target) (python_exec : String)
    (w : World) (i : Nat) : Except MeasureError (List Jobj) :=
  match depths with
  | [] => .ok []
  | d :: ds =>
    match measureInner ts d python_exec w i with
    | .error e => .error e
    | .ok (rs, j) =>
      match measureOuter ds ts python_exec w j with
      | .error e => .error e
      | .ok more => .ok (rs ++ more)

/-- The command-line arguments (lines 166–180): the list of depths
(default `[10, 16, 24]`) and the interpreter used to spawn the helper
(default `sys.executable`). -/
structure Args where
  depths : List Int := [10, 16, 24]
  python : String := "sys.executable"

/-- `main()` (lines 183–250), as a function of the session's environment:
build the dotnet target, run every (depth, target) measurement in order,
format the table, print it, return 0.  The returned pair is the list of
strings printed to standard output and the return value; any raised error
is the `.error` case and nothing is printed. -/
def pymain (args : Args) (w : World) :
    Except SessionError (List String × Int) := do
  let () ← ensure_dotnet_built w.buildExit
  match measureOuter args.depths targets args.python w 0 with
  | .error e => .error (.measure e)
  | .ok results =>
    match format_table results with
    | .error e => .error (.render e)
    | .ok table => .ok ([table], 0)

/-- The observable outcome of the whole process: its exit status, the lines
printed to standard output, and the text on the inherited standard error
(where the build subprocess writes directly). -/
structure ProcOut where
  exitCode : Int
  printed : List String
  stderrText : String

/-- `raise SystemExit(main())` (lines 253–254): a normal return exits with
`main`'s return value; an uncaught exception makes the interpreter exit
with status 1 having printed nothing to standard output.  The build
subprocess inherits standard error, so its output appears there either
way. -/
def processRun (args : Args) (w : World) : ProcOut :=
  match pymain args w with
  | .ok (printed, ret) => ⟨ret, printed, w.buildStderr⟩
  | .error _ => ⟨1, [], w.buildStderr⟩

/-- Spec-side width rule (§4.5): "Column width = max(header label length,
every formatted cell length in that column)". -/
def colWidth (h : String) (cs : List String) : Nat :=
  cs.foldr (fun c acc => max c.length acc) h.length

/-- Spec-side rendering of the report, written from the words of §4.5 of the
specification over already-formatted three-cell rows: three columns whose
widths follow `colWidth`, every cell left-justified and padded to its
column's width, cells joined with " | ", a separator row of per-column dash
runs joined with "-+-", one header row, the separator, then one row per
result, joined with newlines.  To be compared with `format_table`, the
renderer embedded from the source. -/
def renderSpec (cells : List (String × String × String)) : String :=
  let w₁ := colWidth "语言" (cells.map (fun c => c.1))
  let w₂ := colWidth "树深度" (cells.map (fun c => c.2.1))
  let w₃ := colWidth "峰值 RSS (MB)" (cells.map (fun c => c.2.2))
  let line := fun (a b c : String) =>
    ljust a w₁ ++ " | " ++ ljust b w₂ ++ " | " ++ ljust c w₃
  let sep := dashes w₁ ++ "-+-" ++ dashes w₂ ++ "-+-" ++ dashes w₃
  joinSep "\n"
    (line "语言" "树深度" "峰值 RSS (MB)" :: sep ::
      cells.map (fun c => line c.1 c.2.1 c.2.2))

theorem bind_ok {α β ε : Type} (a : α) (f : α → Except ε β) :
    (Except.ok a >>= f) = f a := rfl

theorem bind_error {α β ε : Type} (e : ε) (f : α → Except ε β) :
    ((Except.error e : Except ε α) >>= f) = .error e := rfl

theorem lookup_setKey_self (o : Jobj) (k : String) (v : Json) :
    lookup (setKey o k v) k = some v := by
  induction o with
  | nil => simp [setKey, lookup]
  | cons p rest ih =>
    obtain ⟨k₀, v₀⟩ := p
    by_cases hk : k₀ = k
    · simp [setKey, lookup, hk]
    · simp [setKey, lookup, hk, ih]

theorem lookup_setKey_ne (o : Jobj) (k k' : String) (v : Json)
    (h : k' ≠ k) : lookup (setKey o k v) k' = lookup o k' := by
  induction o with
  | nil =>
    have hne : ¬k = k' := fun hkk => h hkk.symm
    simp [setKey, lookup, hne]
  | cons p rest ih =>
    obtain ⟨k₀, v₀⟩ := p
    by_cases hk : k₀ = k
    · have hne : ¬k = k' := fun hkk => h hkk.symm
      have hne₀ : ¬k₀ = k' := hk ▸ hne
      simp [setKey, lookup, hk, hne, hne₀]
    · simp [setKey, lookup, hk, ih]

theorem run_measurement_ok_elim {t : Target} {d : Int} {py tmp : String}
    {h : HelperOutcome} {r : Jobj}
    (hok : (run_measurement t d py tmp h).result = .ok r) :
    h.exit = 0 ∧ ∃ kvs, h.act = .write (.val (.obj kvs)) ∧
      r = setKey (setKey kvs "language" (.str t.name)) "depth" (.int d) := by
  by_cases hexit : h.exit = 0
  · refine ⟨hexit, ?_⟩
    cases hact : h.act with
    | write txt =>
      cases txt with
      | malformed => simp [run_measurement, hexit, hact, fileAfter, unlink] at hok
      | val j =>
        cases j with
        | obj kvs =>
          refine ⟨kvs, rfl, ?_⟩
          simpa [run_measurement, hexit, hact, fileAfter, unlink] using hok.symm
        | str s => simp [run_measurement, hexit, hact, fileAfter, unlink] at hok
        | int n => simp [run_measurement, hexit, hact, fileAfter, unlink] at hok
        | float q => simp [run_measurement, hexit, hact, fileAfter, unlink] at hok
    | remove => simp [run_measurement, hexit, hact, fileAfter] at hok
    | untouched =>
      simp [run_measurement, hexit, hact, fileAfter, initialTempContent,
        unlink] at hok
  · simp [run_measurement, hexit] at hok

/-- C2: for every target and every depth, `Target.command(depth)` returns a
token list of the same length as the template in which every position
holding the exact placeholder token `"{n}"` carries the decimal string of
the depth and every other position carries the template's token unchanged,
order preserved. -/
theorem command_substitutes_placeholder (t : Target) (d : Int) :
    (t.command d).length = t.template.length ∧
    ∀ i : Nat, (t.command d)[i]? =
      (t.template[i]?).map
        (fun token => if token = "{n}" then toString d else token) := by
  refine ⟨by simp [Target.command], fun i => ?_⟩
  simp [Target.command, List.getElem?_map]

/-- C8: for every successful measurement request, the returned record is the
helper's parsed object decorated with `language` equal to the target's name
and `depth` equal to the requested depth, the helper-emitted `peak_mb` value
passing through unchanged. -/
theorem run_measurement_decorates (t : Target) (d : Int) (py tmp : String)
    (h : HelperOutcome) (kvs r : Jobj)
    (hact : h.act = .write (.val (.obj kvs)))
    (hok : (run_measurement t d py tmp h).result = .ok r) :
    lookup r "language" = some (.str t.name) ∧
    lookup r "depth" = some (.int d) ∧
    lookup r "peak_mb" = lookup kvs "peak_mb" := by
  obtain ⟨-, kvs', hact', hr⟩ := run_measurement_ok_elim hok
  rw [hact] at hact'
  simp only [HelperAction.write.injEq, FileText.val.injEq, Json.obj.injEq] at hact'
  subst hact'
  subst hr
  refine ⟨?_, ?_, ?_⟩
  · rw [lookup_setKey_ne _ _ _ _ (by decide), lookup_setKey_self]
  · rw [lookup_setKey_self]
  · rw [lookup_setKey_ne _ _ _ _ (by decide), lookup_setKey_ne _ _ _ _ (by decide)]

/-- C8 witness: the spec's own example — helper output `{"peak_mb": 123.45}`
for target "Rust" at depth 16 yields a record with `peak_mb == 123.45`,
`language == "Rust"`, `depth == 16`. -/
theorem run_measurement_decorates_witness :
    (run_measurement ⟨"Rust", "rust", ["./target/release/rust", "{n}"], []⟩
        16 "python3" "tmp0"
        ⟨0, .write (.val (.obj [("peak_mb", .float (mkRat 12345 100))]))⟩).result
      = .ok [("peak_mb", .float (mkRat 12345 100)), ("language", .str "Rust"),
             ("depth", .int 16)] ∧
    lookup [("peak_mb", .float (mkRat 12345 100)), ("language", .str "Rust"),
            ("depth", .int 16)] "language" = some (.str "Rust") ∧
    lookup [("peak_mb", .float (mkRat 12345 100)), ("language", .str "Rust"),
            ("depth", .int 16)] "depth" = some (.int 16) ∧
    lookup [("peak_mb", .float (mkRat 12345 100)), ("language", .str "Rust"),
            ("depth", .int 16)] "peak_mb"
      = lookup [("peak_mb", .float (mkRat 12345 100))] "peak_mb" :=
  ⟨rfl,
   run_measurement_decorates ⟨"Rust", "rust", ["./target/release/rust", "{n}"], []⟩
     16 "python3" "tmp0"
     ⟨0, .write (.val (.obj [("peak_mb", .float (mkRat 12345 100))]))⟩
     [("peak_mb", .float (mkRat 12345 100))]
     [("peak_mb", .float (mkRat 12345 100)), ("language", .str "Rust"),
      ("depth", .int 16)] rfl rfl⟩

/-- C10: helper-supplied values for the keys "language" and "depth" are
overwritten with the target's name and the requested depth before the record
is returned, and every other helper-emitted key passes through unchanged. -/
theorem run_measurement_overwrites_reserved (t : Target) (d : Int)
    (py tmp : String) (h : HelperOutcome) (kvs r : Jobj)
    (hact : h.act = .write (.val (.obj kvs)))
    (hok : (run_measurement t d py tmp h).result = .ok r) :
    lookup r "language" = some (.str t.name) ∧
    lookup r "depth" = some (.int d) ∧
    ∀ k, k ≠ "language" → k ≠ "depth" → lookup r k = lookup kvs k := by
  obtain ⟨-, kvs', hact', hr⟩ := run_measurement_ok_elim hok
  rw [hact] at hact'
  simp only [HelperAction.write.injEq, FileText.val.injEq, Json.obj.injEq] at hact'
  subst hact'
  subst hr
  refine ⟨?_, lookup_setKey_self _ _ _, fun k hkl hkd => ?_⟩
  · rw [lookup_setKey_ne _ _ _ _ (by decide), lookup_setKey_self]
  · rw [lookup_setKey_ne _ _ _ _ hkd, lookup_setKey_ne _ _ _ _ hkl]

/-- C10 witness: a helper record that itself carries "language", "depth" and
"peak_mb" keys has the first two overwritten and the last passed through. -/
theorem run_measurement_overwrites_reserved_witness :
    (run_measurement dotnetTarget 5 "python3" "tmp0"
        ⟨0, .write (.val (.obj [("language", .str "sneaky"), ("depth", .int 0),
                                ("peak_mb", .int 7)]))⟩).result
      = .ok [("language", .str ".NET"), ("depth", .int 5), ("peak_mb", .int 7)] ∧
    lookup [("language", .str ".NET"), ("depth", .int 5), ("peak_mb", .int 7)]
        "language" = some (.str ".NET") ∧
    lookup [("language", .str ".NET"), ("depth", .int 5), ("peak_mb", .int 7)]
        "peak_mb"
      = lookup [("language", .str "sneaky"), ("depth", .int 0),
                ("peak_mb", .int 7)] "peak_mb" :=
  ⟨rfl,
   (run_measurement_overwrites_reserved dotnetTarget 5 "python3" "tmp0"
      ⟨0, .write (.val (.obj [("language", .str "sneaky"), ("depth", .int 0),
                              ("peak_mb", .int 7)]))⟩
      [("language", .str "sneaky"), ("depth", .int 0), ("peak_mb", .int 7)]
      [("language", .str ".NET"), ("depth", .int 5), ("peak_mb", .int 7)]
      rfl rfl).1,
   (run_measurement_overwrites_reserved dotnetTarget 5 "python3" "tmp0"
      ⟨0, .write (.val (.obj [("language", .str "sneaky"), ("depth", .int 0),
                              ("peak_mb", .int 7)]))⟩
      [("language", .str "sneaky"), ("depth", .int 0), ("peak_mb", .int 7)]
      [("language", .str ".NET"), ("depth", .int 5), ("peak_mb", .int 7)]
      rfl rfl).2.2 "peak_mb" (by decide) (by decide)⟩

/-- C9: after every successful measurement request the temporary result file
no longer exists, and a further deletion attempt on the already-removed file
(`missing_ok = True`) does not raise. -/
theorem run_measurement_cleans_up (t : Target) (d : Int) (py tmp : String)
    (h : HelperOutcome) (r : Jobj)
    (hok : (run_measurement t d py tmp h).result = .ok r) :
    (run_measurement t d py tmp h).fileFinal = none ∧
    unlink true ((run_measurement t d py tmp h).fileFinal) = .ok none := by
  obtain ⟨hexit, kvs, hact, -⟩ := run_measurement_ok_elim hok
  have hfile : (run_measurement t d py tmp h).fileFinal = none := by
    simp [run_measurement, hexit, hact, fileAfter, unlink]
  exact ⟨hfile, by rw [hfile]; rfl⟩

/-- C9 witness: a concrete successful request leaves no file behind and the
second deletion attempt succeeds. -/
theorem run_measurement_cleans_up_witness :
    (run_measurement dotnetTarget 10 "python3" "tmp0"
        ⟨0, .write (.val (.obj [("peak_mb", .int 3)]))⟩).result
      = .ok [("peak_mb", .int 3), ("language", .str ".NET"), ("depth", .int 10)] ∧
    (run_measurement dotnetTarget 10 "python3" "tmp0"
        ⟨0, .write (.val (.obj [("peak_mb", .int 3)]))⟩).fileFinal = none ∧
    unlink true ((run_measurement dotnetTarget 10 "python3" "tmp0"
        ⟨0, .write (.val (.obj [("peak_mb", .int 3)]))⟩).fileFinal) = .ok none :=
  ⟨rfl,
   (run_measurement_cleans_up dotnetTarget 10 "python3" "tmp0"
      ⟨0, .write (.val (.obj [("peak_mb", .int 3)]))⟩
      [("peak_mb", .int 3), ("language", .str ".NET"), ("depth", .int 10)]
      rfl).1,
   (run_measurement_cleans_up dotnetTarget 10 "python3" "tmp0"
      ⟨0, .write (.val (.obj [("peak_mb", .int 3)]))⟩
      [("peak_mb", .int 3), ("language", .str ".NET"), ("depth", .int 10)]
      rfl).2⟩

/-- C1 counterexample: the claim says a helper that exits 0 without writing
the result file makes `run_measurement` fail with the MissingResultFile
protocol error.  In the code, `tempfile.NamedTemporaryFile(delete = False)`
has already created the result file (empty) before the helper runs, so a
helper that exits 0 and never touches the file leaves an existing,
unparseable (empty) file: `json_file.exists()` is true, the RuntimeError of
lines 129–131 is not raised, and the failure is instead the
`json.JSONDecodeError` from `json.loads` on line 135. -/
theorem run_measurement_unwritten_counterexample :
    (run_measurement dotnetTarget 16 "python3" "tmp0"
        ⟨0, .untouched⟩).result = .error .malformedResult ∧
    (run_measurement dotnetTarget 16 "python3" "tmp0"
        ⟨0, .untouched⟩).result ≠ .error (.missingResultFile ".NET" 16) := by
  refine ⟨rfl, fun hcontra => ?_⟩
  have h1 : (Except.error MeasureError.malformedResult : Except MeasureError Jobj)
      = .error (.missingResultFile ".NET" 16) := hcontra
  simp at h1

/-- C1 (amended): if the helper exits 0 and the result file is absent after
exit (someone removed the pre-created temporary file), `run_measurement`
fails with the MissingResultFile error; a helper that exits 0 but never
writes leaves the pre-created empty file and `run_measurement` then fails
with the malformed-result parse error; in every case a record is returned
only when the helper actually wrote a parseable object — nothing is ever
fabricated. -/
theorem run_measurement_requires_result_file (t : Target) (d : Int)
    (py tmp : String) (h : HelperOutcome) (hexit : h.exit = 0) :
    (fileAfter h.act = none →
      (run_measurement t d py tmp h).result
        = .error (.missingResultFile t.name d)) ∧
    (h.act = .untouched →
      (run_measurement t d py tmp h).result = .error .malformedResult) ∧
    (∀ r : Jobj, (run_measurement t d py tmp h).result = .ok r →
      ∃ kvs, h.act = .write (.val (.obj kvs))) := by
  refine ⟨fun hf => ?_, fun ha => ?_, fun r hok => ?_⟩
  · simp [run_measurement, hexit, hf]
  · simp [run_measurement, hexit, ha, fileAfter, initialTempContent, unlink]
  · obtain ⟨-, kvs, hact, -⟩ := run_measurement_ok_elim hok
    exact ⟨kvs, hact⟩

/-- C1 witness: with the result file removed after a clean helper exit, the
request fails with the missing-result-file error. -/
theorem run_measurement_requires_result_file_witness :
    fileAfter HelperAction.remove = none ∧
    (run_measurement dotnetTarget 10 "python3" "tmp0"
        ⟨0, .remove⟩).result = .error (.missingResultFile ".NET" 10) :=
  ⟨rfl,
   (run_measurement_requires_result_file dotnetTarget 10 "python3" "tmp0"
      ⟨0, .remove⟩ rfl).1 rfl⟩

/-- C4 counterexample: the claim says a result-file object lacking the
required numeric field `peak_mb` makes `run_measurement` fail with the
MalformedResult error rather than return a record without `peak_mb`.  In
the code `run_measurement` never checks for `peak_mb`: on a parseable
object without that key it returns the decorated record, which has no
`peak_mb` key. -/
theorem run_measurement_missing_peak_counterexample :
    (run_measurement dotnetTarget 16 "python3" "tmp0"
        ⟨0, .write (.val (.obj [("foo", .int 1)]))⟩).result
      = .ok [("foo", .int 1), ("language", .str ".NET"), ("depth", .int 16)] ∧
    lookup [("foo", .int 1), ("language", .str ".NET"), ("depth", .int 16)]
        "peak_mb" = none :=
  ⟨rfl, rfl⟩

/-- C4 (amended): unparseable result-file content does fail inside
`run_measurement` (the `json.loads` error); but a parseable object lacking
`peak_mb` is returned as a record without `peak_mb`, and that omission only
surfaces later, as the `KeyError` that `format_table` raises on the
`row["peak_mb"]` access — so no table containing such a record is ever
rendered. -/
theorem run_measurement_malformed_or_late_failure (t : Target) (d : Int)
    (py tmp : String) (kvs : Jobj) :
    (run_measurement t d py tmp ⟨0, .write .malformed⟩).result
        = .error .malformedResult ∧
    (lookup kvs "peak_mb" = none →
      ∀ r : Jobj,
        (run_measurement t d py tmp ⟨0, .write (.val (.obj kvs))⟩).result
          = .ok r →
        lookup r "peak_mb" = none ∧
        format_table [r] = .error (.keyError "peak_mb")) := by
  refine ⟨by simp [run_measurement, fileAfter, unlink], fun hnone r hok => ?_⟩
  obtain ⟨-, kvs', hact', hr⟩ := run_measurement_ok_elim hok
  simp only [HelperAction.write.injEq, FileText.val.injEq, Json.obj.injEq] at hact'
  subst hact'
  subst hr
  have hpeak : lookup (setKey (setKey kvs "language" (.str t.name))
      "depth" (.int d)) "peak_mb" = none := by
    rw [lookup_setKey_ne _ _ _ _ (by decide), lookup_setKey_ne _ _ _ _ (by decide)]
    exact hnone
  have hlang : lookup (setKey (setKey kvs "language" (.str t.name))
      "depth" (.int d)) "language" = some (.str t.name) := by
    rw [lookup_setKey_ne _ _ _ _ (by decide), lookup_setKey_self]
  have hdep : lookup (setKey (setKey kvs "language" (.str t.name))
      "depth" (.int d)) "depth" = some (.int d) :=
    lookup_setKey_self _ _ _
  refine ⟨hpeak, ?_⟩
  simp [format_table, mapRows, mkDataRow, getKey, hpeak, hlang, hdep,
    bind_ok, bind_error]

/-- C4 witness: a well-formed object without `peak_mb` comes back as a
record without `peak_mb`, and rendering that record raises the KeyError. -/
theorem run_measurement_malformed_or_late_failure_witness :
    lookup [("foo", Json.int 1)] "peak_mb" = none ∧
    lookup [("foo", Json.int 1), ("language", Json.str ".NET"),
            ("depth", Json.int 16)] "peak_mb" = none ∧
    format_table [[("foo", Json.int 1), ("language", Json.str ".NET"),
                   ("depth", Json.int 16)]] = .error (.keyError "peak_mb") :=
  ⟨rfl,
   ((run_measurement_malformed_or_late_failure dotnetTarget 16 "python3" "tmp0"
      [("foo", .int 1)]).2 rfl
      [("foo", Json.int 1), ("language", Json.str ".NET"),
       ("depth", Json.int 16)] rfl).1,
   ((run_measurement_malformed_or_late_failure dotnetTarget 16 "python3" "tmp0"
      [("foo", .int 1)]).2 rfl
      [("foo", Json.int 1), ("language", Json.str ".NET"),
       ("depth", Json.int 16)] rfl).2⟩

theorem measureInner_ok_elim {ts : List Target} {d : Int} {py : String}
    {w : World} {i : Nat} {rs : List Jobj} {j : Nat}
    (h : measureInner ts d py w i = .ok (rs, j)) :
    rs.map (fun r => (lookup r "depth", lookup r "language"))
      = ts.map (fun t => (some (Json.int d), some (Json.str t.name))) := by
  induction ts generalizing i rs j with
  | nil =>
    simp only [measureInner, Except.ok.injEq, Prod.mk.injEq] at h
    rw [← h.1]
    simp
  | cons t rest ih =>
    rw [measureInner] at h
    cases hrun : (run_measurement t d py ("tmp" ++ toString i)
        (w.helperAt i)).result with
    | error e => rw [hrun] at h; exact absurd h (by simp)
    | ok r =>
      rw [hrun] at h
      cases hrec : measureInner rest d py w (i + 1) with
      | error e => rw [hrec] at h; exact absurd h (by simp)
      | ok p =>
        obtain ⟨rs', j'⟩ := p
        rw [hrec] at h
        simp only [Except.ok.injEq, Prod.mk.injEq] at h
        rw [← h.1]
        obtain ⟨-, kvs, -, hr⟩ := run_measurement_ok_elim hrun
        subst hr
        simp only [List.map_cons, ih hrec]
        refine congrArg (fun x => x :: _) ?_
        rw [lookup_setKey_self, lookup_setKey_ne _ _ _ _ (by decide),
          lookup_setKey_self]

theorem measureInner_length {ts : List Target} {d : Int} {py : String}
    {w : World} {i : Nat} {rs : List Jobj} {j : Nat}
    (h : measureInner ts d py w i = .ok (rs, j)) : rs.length = ts.length := by
  have := congrArg List.length (measureInner_ok_elim h)
  simpa using this

theorem measureOuter_ok_elim {ds : List Int} {ts : List Target} {py : String}
    {w : World} {i : Nat} {results : List Jobj}
    (h : measureOuter ds ts py w i = .ok results) :
    results.map (fun r => (lookup r "depth", lookup r "language"))
      = ds.flatMap (fun d => ts.map (fun t =>
          (some (Json.int d), some (Json.str t.name)))) := by
  induction ds generalizing i results with
  | nil =>
    simp only [measureOuter, Except.ok.injEq] at h
    rw [← h]
    simp
  | cons d rest ih =>
    cases hin : measureInner ts d py w i with
    | error e => rw [measureOuter, hin] at h; exact absurd h (by simp)
    | ok p =>
      obtain ⟨rs, j⟩ := p
      rw [measureOuter, hin] at h
      dsimp only at h
      cases hout : measureOuter rest ts py w j with
      | error e => rw [hout] at h; exact absurd h (by simp)
      | ok more =>
        rw [hout] at h
        simp only [Except.ok.injEq] at h
        rw [← h]
        simp only [List.map_append, List.flatMap_cons]
        rw [measureInner_ok_elim hin, ih hout]

/-- C3: when the whole session succeeds, the aggregated result list has
exactly one decorated result per (depth, target) pair, ordered with the
requested depths (in the order given, duplicates permitted) as the outer
iteration and the targets in declaration order as the inner iteration. -/
theorem aggregation_order (ds : List Int) (ts : List Target) (py : String)
    (w : World) (results : List Jobj)
    (hok : measureOuter ds ts py w 0 = .ok results) :
    results.map (fun r => (lookup r "depth", lookup r "language"))
      = ds.flatMap (fun d => ts.map (fun t =>
          (some (Json.int d), some (Json.str t.name)))) ∧
    results.length = ds.length * ts.length := by
  refine ⟨measureOuter_ok_elim hok, ?_⟩
  have h1 := congrArg List.length (measureOuter_ok_elim hok)
  simp only [List.length_map, List.length_flatMap] at h1
  rw [h1]
  clear h1 hok
  induction ds with
  | nil => simp
  | cons d rest ih => simp [Function.comp, ih, Nat.succ_mul, Nat.add_comm]

/-- C3 witness: the spec's example — sizes [10, 16] over targets [A, B]
yield results in exactly the order (10,A), (10,B), (16,A), (16,B). -/
theorem aggregation_order_witness :
    measureOuter [10, 16] [⟨"A", "a", [], []⟩, ⟨"B", "b", [], []⟩] "python3"
        ⟨0, "", fun _ => ⟨0, .write (.val (.obj []))⟩⟩ 0
      = .ok [[("language", Json.str "A"), ("depth", Json.int 10)],
             [("language", Json.str "B"), ("depth", Json.int 10)],
             [("language", Json.str "A"), ("depth", Json.int 16)],
             [("language", Json.str "B"), ("depth", Json.int 16)]] ∧
    [[("language", Json.str "A"), ("depth", Json.int 10)],
     [("language", Json.str "B"), ("depth", Json.int 10)],
     [("language", Json.str "A"), ("depth", Json.int 16)],
     [("language", Json.str "B"), ("depth", Json.int 16)]].map
        (fun r => (lookup r "depth", lookup r "language"))
      = [10, 16].flatMap (fun d =>
          [(⟨"A", "a", [], []⟩ : Target), ⟨"B", "b", [], []⟩].map (fun t =>
            (some (Json.int d), some (Json.str t.name)))) :=
  ⟨rfl,
   (aggregation_order [10, 16] [⟨"A", "a", [], []⟩, ⟨"B", "b", [], []⟩]
      "python3" ⟨0, "", fun _ => ⟨0, .write (.val (.obj []))⟩⟩
      [[("language", Json.str "A"), ("depth", Json.int 10)],
       [("language", Json.str "B"), ("depth", Json.int 10)],
       [("language", Json.str "A"), ("depth", Json.int 16)],
       [("language", Json.str "B"), ("depth", Json.int 16)]] rfl).1⟩

/-- C5: the process exits 0 only when the build and every measurement
request succeeded and the complete formatted table was printed, exactly
once; on a build failure or any measurement failure it exits 1 with
nothing printed. -/
theorem orchestrator_exit_semantics (args : Args) (w : World) :
    ((processRun args w).exitCode = 0 →
      w.buildExit = 0 ∧
      ∃ results table,
        measureOuter args.depths targets args.python w 0 = .ok results ∧
        format_table results = .ok table ∧
        (processRun args w).printed = [table]) ∧
    ((w.buildExit ≠ 0 ∨
        ∃ e, measureOuter args.depths targets args.python w 0 = .error e) →
      (processRun args w).exitCode = 1 ∧ (processRun args w).printed = []) := by
  by_cases hb : w.buildExit = 0
  · have hbuild : ensure_dotnet_built w.buildExit = .ok () := by
      simp [ensure_dotnet_built, hb]
    cases hms : measureOuter args.depths targets args.python w 0 with
    | error e =>
      have hpy : pymain args w = .error (.measure e) := by
        simp [pymain, hbuild, hms, bind_ok]
      constructor
      · intro h0
        simp [processRun, hpy] at h0
      · intro hfail
        simp [processRun, hpy]
    | ok results =>
      cases hft : format_table results with
      | error e =>
        have hpy : pymain args w = .error (.render e) := by
          simp [pymain, hbuild, hms, hft, bind_ok]
        constructor
        · intro h0
          simp [processRun, hpy] at h0
        · intro hfail
          simp [processRun, hpy]
      | ok table =>
        have hpy : pymain args w = .ok ([table], 0) := by
          simp [pymain, hbuild, hms, hft, bind_ok]
        constructor
        · intro h0
          exact ⟨hb, results, table, rfl, hft, by simp [processRun, hpy]⟩
        · intro hfail
          rcases hfail with hb' | ⟨e', he'⟩
          · exact absurd hb hb'
          · exact absurd he' (by simp)
  · have hpy : pymain args w = .error (.buildFailure w.buildExit none) := by
      simp [pymain, ensure_dotnet_built, hb, bind_error]
    constructor
    · intro h0
      simp [processRun, hpy] at h0
    · intro hfail
      simp [processRun, hpy]

/-- C5 witness: a fully successful session — dotnet build exits 0 and the
helper writes `{"peak_mb": 5}` — exits 0 having printed the table once. -/
theorem orchestrator_exit_semantics_witness :
    (processRun ⟨[10], "python3"⟩
        ⟨0, "", fun _ => ⟨0, .write (.val (.obj [("peak_mb", .int 5)]))⟩⟩).exitCode
      = 0 ∧
    ((0 : Int) = 0 ∧
      ∃ results table,
        measureOuter [10] targets "python3"
            ⟨0, "", fun _ => ⟨0, .write (.val (.obj [("peak_mb", .int 5)]))⟩⟩ 0
          = .ok results ∧
        format_table results = .ok table ∧
        (processRun ⟨[10], "python3"⟩
            ⟨0, "", fun _ =>
              ⟨0, .write (.val (.obj [("peak_mb", .int 5)]))⟩⟩).printed
          = [table]) :=
  ⟨rfl,
   (orchestrator_exit_semantics ⟨[10], "python3"⟩
      ⟨0, "", fun _ => ⟨0, .write (.val (.obj [("peak_mb", .int 5)]))⟩⟩).1 rfl⟩

/-- C6 counterexample: the claim says the failure raised for a non-zero
build exit carries the captured stderr/stdout text.  The active build step
`ensure_dotnet_built` runs `dotnet publish` with `check = True` but captures
neither stream (unlike the commented-out `ensure_rust_built`), so the raised
`CalledProcessError` carries no captured text: with the build failing (exit
1, "dotnet: error MSB1009" on the inherited stderr), the session error is
`buildFailure 1 none`, not `buildFailure 1 (some "dotnet: error MSB1009")`. -/
theorem build_failure_counterexample :
    pymain ⟨[10], "python3"⟩
        ⟨1, "dotnet: error MSB1009", fun _ => ⟨0, .untouched⟩⟩
      = .error (.buildFailure 1 none) ∧
    SessionError.buildFailure 1 none
      ≠ .buildFailure 1 (some "dotnet: error MSB1009") :=
  ⟨rfl, by decide⟩

/-- C6 (amended): when the build step exits non-zero, a build-failure error
is raised — carrying no captured output, since `ensure_dotnet_built` does
not capture; the build's error text reaches the process's standard error
directly through stream inheritance — the session aborts before any
measurement request (the outcome is independent of the helper's behaviour),
and the process exits 1 with nothing printed to standard output. -/
theorem build_failure_aborts (args : Args) (w : World)
    (hb : w.buildExit ≠ 0) :
    pymain args w = .error (.buildFailure w.buildExit none) ∧
    (∀ h2 : Nat → HelperOutcome,
      pymain args { w with helperAt := h2 } = pymain args w) ∧
    (processRun args w).exitCode = 1 ∧
    (processRun args w).printed = [] ∧
    (processRun args w).stderrText = w.buildStderr := by
  have hpy : ∀ w' : World, w'.buildExit ≠ 0 →
      pymain args w' = .error (.buildFailure w'.buildExit none) := by
    intro w' hb'
    simp [pymain, ensure_dotnet_built, hb', bind_error]
  refine ⟨hpy w hb, fun h2 => ?_, ?_, ?_, ?_⟩
  · rw [hpy { w with helperAt := h2 } hb, hpy w hb]
  · simp [processRun, hpy w hb]
  · simp [processRun, hpy w hb]
  · simp [processRun, hpy w hb]

/-- C6 witness: a concrete failing build aborts the session with exit 1,
nothing printed, and the build's stderr text on the process's stderr. -/
theorem build_failure_aborts_witness :
    (1 : Int) ≠ 0 ∧
    pymain ⟨[10, 16], "python3"⟩ ⟨1, "boom", fun _ => ⟨0, .untouched⟩⟩
      = .error (.buildFailure 1 none) ∧
    (processRun ⟨[10, 16], "python3"⟩
        ⟨1, "boom", fun _ => ⟨0, .untouched⟩⟩).printed = [] ∧
    (processRun ⟨[10, 16], "python3"⟩
        ⟨1, "boom", fun _ => ⟨0, .untouched⟩⟩).stderrText = "boom" :=
  ⟨by decide,
   (build_failure_aborts ⟨[10, 16], "python3"⟩
      ⟨1, "boom", fun _ => ⟨0, .untouched⟩⟩ (by decide)).1,
   (build_failure_aborts ⟨[10, 16], "python3"⟩
      ⟨1, "boom", fun _ => ⟨0, .untouched⟩⟩ (by decide)).2.2.2.1,
   (build_failure_aborts ⟨[10, 16], "python3"⟩
      ⟨1, "boom", fun _ => ⟨0, .untouched⟩⟩ (by decide)).2.2.2.2⟩

theorem foldr_max_init {α : Type} (f : α → Nat) (l : List α) (a y : Nat) :
    l.foldr (fun x acc => max (f x) acc) (max a y)
      = max y (l.foldr (fun x acc => max (f x) acc) a) := by
  induction l with
  | nil => exact Nat.max_comm a y
  | cons x rest ih => simp [ih, Nat.max_left_comm]

theorem foldl_bumpWidths (cells : List (String × String × String))
    (a b c : Nat) :
    (cells.map (fun p => [p.1, p.2.1, p.2.2])).foldl bumpWidths [a, b, c]
      = [cells.foldr (fun p acc => max p.1.length acc) a,
         cells.foldr (fun p acc => max p.2.1.length acc) b,
         cells.foldr (fun p acc => max p.2.2.length acc) c] := by
  induction cells generalizing a b c with
  | nil => rfl
  | cons p rest ih =>
    simp only [List.map_cons, List.foldl_cons, List.foldr_cons, bumpWidths]
    rw [ih]
    rw [foldr_max_init (fun p => p.1.length) rest a p.1.length,
      foldr_max_init (fun p => p.2.1.length) rest b p.2.1.length,
      foldr_max_init (fun p => p.2.2.length) rest c p.2.2.length]

theorem mapRows_length {rows : List Jobj} {ds : List (List String)}
    (h : mapRows rows = .ok ds) : ds.length = rows.length := by
  induction rows generalizing ds with
  | nil =>
    simp only [mapRows, Except.ok.injEq] at h
    rw [← h]
    rfl
  | cons r rest ih =>
    rw [mapRows] at h
    cases hma : mkDataRow r with
    | error e => rw [hma] at h; exact absurd h (by simp [bind_error])
    | ok a =>
      rw [hma, bind_ok] at h
      cases hmr : mapRows rest with
      | error e => rw [hmr] at h; exact absurd h (by simp [bind_error])
      | ok as =>
        rw [hmr, bind_ok] at h
        simp only [Except.ok.injEq] at h
        rw [← h]
        simp [ih hmr]

theorem joinSep_three (s x y z : String) :
    joinSep s [x, y, z] = x ++ s ++ y ++ s ++ z := by
  simp [joinSep, String.append_assoc]

theorem map_fmt_three (w₁ w₂ w₃ : Nat) (cells : List (String × String × String)) :
    List.map ((fun values => joinSep " | " (ljustCells values [w₁, w₂, w₃])) ∘
        fun c => [c.1, c.2.1, c.2.2]) cells
      = List.map (fun c => ljust c.1 w₁ ++ " | " ++ ljust c.2.1 w₂ ++ " | "
          ++ ljust c.2.2 w₃) cells := by
  induction cells with
  | nil => rfl
  | cons p rest ih =>
    simp [Function.comp, ljustCells, joinSep, String.append_assoc, ih]

/-- C7: `format_table` refines the specification's rendering rule: whenever
the formatted three-cell rows of the result list are `cells`, the rendered
table is exactly `renderSpec cells` — one header row, one separator row, one
data row per result, widths the per-column maxima of header length and cell
lengths, cells left-justified and joined with " | ", the separator made of
per-column dash runs joined with "-+-". -/
theorem format_table_refines_spec (rows : List Jobj)
    (cells : List (String × String × String))
    (h : mapRows rows = .ok (cells.map (fun c => [c.1, c.2.1, c.2.2]))) :
    format_table rows = .ok (renderSpec cells) ∧ cells.length = rows.length := by
  constructor
  · have hw : (cells.map (fun p => [p.1, p.2.1, p.2.2])).foldl bumpWidths
        (headers.map String.length)
        = [colWidth "语言" (cells.map (fun c => c.1)),
           colWidth "树深度" (cells.map (fun c => c.2.1)),
           colWidth "峰值 RSS (MB)" (cells.map (fun c => c.2.2))] := by
      rw [show headers.map String.length
            = ["语言".length, "树深度".length, "峰值 RSS (MB)".length] from rfl]
      rw [foldl_bumpWidths]
      simp [colWidth, List.foldr_map]
    simp only [format_table, h, bind_ok, hw]
    simp [renderSpec, ljustCells, joinSep, List.map_map, map_fmt_three,
      String.append_assoc]
  · have hl := mapRows_length h
    simpa using hl

/-- C7 witness: the spec's example rows — ("Go",10,5.0) and
("Rust",16,12.3) — render exactly as the specification's width and
separator rules dictate. -/
theorem format_table_refines_spec_witness :
    mapRows [[("language", Json.str "Go"), ("depth", Json.int 10),
              ("peak_mb", Json.float 5)],
             [("language", Json.str "Rust"), ("depth", Json.int 16),
              ("peak_mb", Json.float (mkRat 123 10))]]
      = .ok [["Go", "10", "5.00"], ["Rust", "16", "12.30"]] ∧
    format_table [[("language", Json.str "Go"), ("depth", Json.int 10),
                   ("peak_mb", Json.float 5)],
                  [("language", Json.str "Rust"), ("depth", Json.int 16),
                   ("peak_mb", Json.float (mkRat 123 10))]]
      = .ok (renderSpec [("Go", "10", "5.00"), ("Rust", "16", "12.30")]) :=
  ⟨rfl,
   (format_table_refines_spec
      [[("language", Json.str "Go"), ("depth", Json.int 10),
        ("peak_mb", Json.float 5)],
       [("language", Json.str "Rust"), ("depth", Json.int 16),
        ("peak_mb", Json.float (mkRat 123 10))]]
      [("Go", "10", "5.00"), ("Rust", "16", "12.30")] rfl).1⟩

end RunBenchmarks
